import Mathlib

/-!
Shallow embedding of `src/proof-aggregation/src/base_circuit/fibonacci.rs`:
a halo2 Fibonacci circuit with three advice columns, one selector and one
instance column.  The constraint-system builder (`configure`) is modelled as
explicit state passing over `MetaState`; circuit synthesis (`synthesize`) as
explicit state passing over `SynthState`, recording the honestly assigned
advice values, the enabled selector rows, the copy (equality) constraints and
the advice-cell-to-instance-row bindings that the halo2 layouter would record.
Satisfaction of the produced constraint system by an arbitrary
(prover-chosen) assignment is the predicate `Satisfies`.
-/

namespace FibCircuit

/-- The three advice columns of the circuit, `col_a`, `col_b`, `col_c`. -/
inductive Col where
  | a
  | b
  | c
deriving DecidableEq, Repr

/-- A cell of the advice region: a column together with a (global) row. -/
structure Cell where
  col : Col
  row : Nat
deriving DecidableEq, Repr

/-- Synthesis-time errors of the framework; the only one reachable in this
model is a bounds failure when reading an instance value that was not
supplied. -/
inductive Err where
  | boundsFailure
deriving DecidableEq, Repr

/-- Gate expressions, mirroring the halo2 `Expression` constructors used by
`FibonacciConfig::new`: a queried selector, an advice query at the current
rotation, and the ring operations. -/
inductive Expr (F : Type) where
  | const : F → Expr F
  | selVar : Expr F
  | adv : Col → Expr F
  | add : Expr F → Expr F → Expr F
  | sub : Expr F → Expr F → Expr F
  | mul : Expr F → Expr F → Expr F

/-- Evaluate a gate expression at one row, given the advice values `w` of
that row and the selector value `s` of that row. -/
def Expr.eval {F : Type} [Field F] (w : Col → F) (s : F) : Expr F → F
  | .const k => k
  | .selVar => s
  | .adv col => w col
  | .add x y => Expr.eval w s x + Expr.eval w s y
  | .sub x y => Expr.eval w s x - Expr.eval w s y
  | .mul x y => Expr.eval w s x * Expr.eval w s y

/-- The single gate registered by `FibonacciConfig::new`:
`s * (a + b - c)`. -/
def addGate (F : Type) : Expr F :=
  Expr.mul Expr.selVar
    (Expr.sub (Expr.add (Expr.adv Col.a) (Expr.adv Col.b)) (Expr.adv Col.c))

/-- The state of the halo2 `ConstraintSystem` builder, restricted to what
`FibonacciConfig::new` touches: column counters, the equality-enabled
columns, and the registered gates. -/
structure MetaState (F : Type) where
  numAdvice : Nat
  numSelectors : Nat
  numInstanceCols : Nat
  eqAdvice : List Nat
  eqInstanceCols : List Nat
  gates : List (Expr F)

/-- The empty constraint-system builder. -/
def emptyMeta (F : Type) : MetaState F :=
  ⟨0, 0, 0, [], [], []⟩

/-- Model of `meta.advice_column()`: returns the next advice column index. -/
def advice_column {F : Type} (m : MetaState F) : Nat × MetaState F :=
  (m.numAdvice, { m with numAdvice := m.numAdvice + 1 })

/-- Model of `meta.selector()`: returns the next selector index. -/
def selectorAlloc {F : Type} (m : MetaState F) : Nat × MetaState F :=
  (m.numSelectors, { m with numSelectors := m.numSelectors + 1 })

/-- Model of `meta.instance_column()`: returns the next instance column
index. -/
def instance_column {F : Type} (m : MetaState F) : Nat × MetaState F :=
  (m.numInstanceCols, { m with numInstanceCols := m.numInstanceCols + 1 })

/-- Model of `meta.enable_equality` on an advice column. -/
def enable_equality_advice {F : Type} (i : Nat) (m : MetaState F) : MetaState F :=
  { m with eqAdvice := m.eqAdvice ++ [i] }

/-- Model of `meta.enable_equality` on an instance column. -/
def enable_equality_instance {F : Type} (i : Nat) (m : MetaState F) : MetaState F :=
  { m with eqInstanceCols := m.eqInstanceCols ++ [i] }

/-- Model of `meta.create_gate`. -/
def create_gate {F : Type} (g : Expr F) (m : MetaState F) : MetaState F :=
  { m with gates := m.gates ++ [g] }

/-- The circuit configuration returned by `FibonacciConfig::new`: the column
and selector indices handed out by the builder. -/
structure FibonacciConfig where
  col_a : Nat
  col_b : Nat
  col_c : Nat
  selector : Nat
  instanceCol : Nat
deriving DecidableEq, Repr

/-- Model of `FibonacciConfig::new` / `configure`: allocates three advice
columns, one selector and one instance column, enables equality on the three
advice columns and the instance column, and registers the single `add`
gate. -/
def FibonacciConfig.new (F : Type) : FibonacciConfig × MetaState F :=
  let m := emptyMeta F
  let p1 := advice_column m
  let p2 := advice_column p1.2
  let p3 := advice_column p2.2
  let p4 := selectorAlloc p3.2
  let p5 := instance_column p4.2
  let m1 := enable_equality_advice p1.1 p5.2
  let m2 := enable_equality_advice p2.1 m1
  let m3 := enable_equality_advice p3.1 m2
  let m4 := enable_equality_instance p5.1 m3
  let m5 := create_gate (addGate F) m4
  (⟨p1.1, p2.1, p3.1, p4.1, p5.1⟩, m5)

/-- A handle to an assigned advice cell, carrying the cell coordinates and
the (honest) value placed there, mirroring halo2's `AssignedCell`. -/
structure AssignedCell (F : Type) where
  cell : Cell
  val : F

/-- The synthesis-time state: the honestly assigned advice values, the rows
on which the selector was enabled, the recorded copy (equality) constraints,
the advice-cell-to-instance-row equality bindings, the next free region row
under the simple floor planner, and a counter of `assign_row` calls. -/
structure SynthState (F : Type) where
  advice : List (Cell × F)
  selectorRows : List Nat
  copies : List (Cell × Cell)
  instanceBinds : List (Cell × Nat)
  nextRow : Nat
  rowCalls : Nat

/-- The synthesis state before any region is assigned. -/
def initState (F : Type) : SynthState F :=
  ⟨[], [], [], [], 0, 0⟩

/-- Model of `selector.enable` at the given global row. -/
def enableSelector {F : Type} (row : Nat) (st : SynthState F) : SynthState F :=
  { st with selectorRows := st.selectorRows ++ [row] }

/-- Model of `region.assign_advice`: records the honest value of the cell and
returns its handle. -/
def assignAdvice {F : Type} (col : Col) (row : Nat) (v : F) (st : SynthState F) :
    AssignedCell F × SynthState F :=
  (⟨⟨col, row⟩, v⟩, { st with advice := st.advice ++ [(⟨col, row⟩, v)] })

/-- Model of `region.assign_advice_from_instance`: reads the instance value
at `iRow` (failing when it was not supplied), assigns it to the advice cell
and records an equality binding between the advice cell and the instance
row. -/
def assignAdviceFromInstance {F : Type} (pub : List F) (iRow : Nat) (col : Col)
    (row : Nat) (st : SynthState F) : Except Err (AssignedCell F × SynthState F) :=
  match pub.get? iRow with
  | none => .error .boundsFailure
  | some v =>
    let p := assignAdvice col row v st
    .ok (p.1, { p.2 with instanceBinds := p.2.instanceBinds ++ [(p.1.cell, iRow)] })

/-- Model of `AssignedCell::copy_advice`: assigns the source cell's value to
the target cell and records a copy (equality) constraint between the two
cells. -/
def copy_advice {F : Type} (src : AssignedCell F) (col : Col) (row : Nat)
    (st : SynthState F) : AssignedCell F × SynthState F :=
  let p := assignAdvice col row src.val st
  (p.1, { p.2 with copies := p.2.copies ++ [(src.cell, p.1.cell)] })

/-- Model of `FibonacciCircuit::assign_first_row`: on a fresh region row,
enables the selector, copies instance rows 0 and 1 into `col_a` and `col_b`,
and assigns `col_c := a + b`. -/
def assign_first_row {F : Type} [Field F] (pub : List F) (st : SynthState F) :
    Except Err ((AssignedCell F × AssignedCell F × AssignedCell F) × SynthState F) :=
  let row := st.nextRow
  let st1 := enableSelector row st
  match assignAdviceFromInstance pub 0 Col.a row st1 with
  | .error e => .error e
  | .ok pa =>
    match assignAdviceFromInstance pub 1 Col.b row pa.2 with
    | .error e => .error e
    | .ok pb =>
      let pc := assignAdvice Col.c row (pa.1.val + pb.1.val) pb.2
      .ok ((pa.1, pb.1, pc.1), { pc.2 with nextRow := pc.2.nextRow + 1 })

/-- Model of `FibonacciCircuit::assign_row`: on a fresh region row, enables
the selector, copies the previous row's `b` and `c` cells into `col_a` and
`col_b` (equality-constrained copies), and assigns
`col_c := prev_b + prev_c`. -/
def assign_row {F : Type} [Field F] (prev_b prev_c : AssignedCell F)
    (st : SynthState F) : AssignedCell F × SynthState F :=
  let row := st.nextRow
  let st1 := enableSelector row st
  let qa := copy_advice prev_b Col.a row st1
  let qb := copy_advice prev_c Col.b row qa.2
  let qc := assignAdvice Col.c row (prev_b.val + prev_c.val) qb.2
  (qc.1, { qc.2 with nextRow := qc.2.nextRow + 1, rowCalls := qc.2.rowCalls + 1 })

/-- Model of `FibonacciCircuit::expose_public` /
`layouter.constrain_instance`: records an equality binding between the given
cell and the given instance row. -/
def expose_public {F : Type} (cl : AssignedCell F) (iRow : Nat)
    (st : SynthState F) : SynthState F :=
  { st with instanceBinds := st.instanceBinds ++ [(cl.cell, iRow)] }

/-- The `for _i in 3..10` loop body of `synthesize`, folded over the list of
loop indices: each iteration assigns one row and shifts the
`(prev_b, prev_c)` window. -/
def synthLoop {F : Type} [Field F] (prev_b prev_c : AssignedCell F)
    (st : SynthState F) : List Nat → AssignedCell F × AssignedCell F × SynthState F
  | [] => (prev_b, prev_c, st)
  | _i :: rest =>
    let q := assign_row prev_b prev_c st
    synthLoop prev_c q.1 q.2 rest

/-- Model of `FibonacciCircuit::synthesize`: assigns the first row, runs the
`for _i in 3..10` loop (seven iterations), and exposes the last computed cell
at instance row 2. -/
def synthesize {F : Type} [Field F] (pub : List F) : Except Err (SynthState F) :=
  match assign_first_row pub (initState F) with
  | .error e => .error e
  | .ok r =>
    let q := synthLoop r.1.2.1 r.1.2.2 r.2 (List.range' 3 7)
    .ok (expose_public q.2.1 2 q.2.2)

/-- The Fibonacci sequence by repeated addition, seeded with
`F(0) = a`, `F(1) = b`. -/
def fibSeq {F : Type} [Field F] (a b : F) : Nat → F
  | 0 => a
  | 1 => b
  | n + 2 => fibSeq a b n + fibSeq a b (n + 1)

/-- The value of a cell under an arbitrary (prover-chosen) full assignment of
the advice grid. -/
def cellVal {F : Type} (w : Nat → Col → F) (cl : Cell) : F :=
  w cl.row cl.col

/-- The selector value of a row: 1 on the rows where synthesis enabled it,
0 elsewhere. -/
def selVal {F : Type} [Field F] (st : SynthState F) (r : Nat) : F :=
  if r ∈ st.selectorRows then 1 else 0

/-- Satisfaction of the constraint system produced by synthesis, by an
arbitrary full assignment `w` of the advice grid: the registered gate
evaluates to zero on every row, every recorded copy constraint holds, and
every advice-cell-to-instance binding matches the supplied public inputs. -/
def Satisfies {F : Type} [Field F] (pub : List F) (st : SynthState F)
    (w : Nat → Col → F) : Prop :=
  (∀ r : Nat, Expr.eval (w r) (selVal st r) (addGate F) = 0) ∧
  (∀ p ∈ st.copies, cellVal w p.1 = cellVal w p.2) ∧
  (∀ p ∈ st.instanceBinds, pub.get? p.2 = some (cellVal w p.1))

/-- Satisfiability of the produced constraint system: some assignment of the
advice grid satisfies it.  Under the mock prover this is exactly
"verification succeeds" for the given public inputs. -/
def Satisfiable {F : Type} [Field F] (pub : List F) (st : SynthState F) : Prop :=
  ∃ w : Nat → Col → F, Satisfies pub st w

/-- The satisfiability outcome of one full run on given public inputs:
synthesis succeeds and the produced constraint system is satisfiable. -/
def SatOutcome {F : Type} [Field F] (pub : List F) : Prop :=
  ∃ st, synthesize pub = Except.ok st ∧ Satisfiable pub st

/-- The synthesis state that `synthesize [a, b, out]` produces, written out
explicitly: the selector is enabled on all eight rows, row `r` of the honest
trace holds `(F(r), F(r+1), F(r+2))`, each later row's `a` and `b` cells are
copy-constrained to earlier `b`/`c` cells, and the instance bindings tie
`(a,0)` to instance row 0, `(b,0)` to instance row 1 and `(c,7)` to instance
row 2.  Note that it does not depend on `out`. -/
def fibState {F : Type} [Field F] (a b : F) : SynthState F where
  advice :=
    [(⟨Col.a, 0⟩, fibSeq a b 0), (⟨Col.b, 0⟩, fibSeq a b 1), (⟨Col.c, 0⟩, fibSeq a b 2),
     (⟨Col.a, 1⟩, fibSeq a b 1), (⟨Col.b, 1⟩, fibSeq a b 2), (⟨Col.c, 1⟩, fibSeq a b 3),
     (⟨Col.a, 2⟩, fibSeq a b 2), (⟨Col.b, 2⟩, fibSeq a b 3), (⟨Col.c, 2⟩, fibSeq a b 4),
     (⟨Col.a, 3⟩, fibSeq a b 3), (⟨Col.b, 3⟩, fibSeq a b 4), (⟨Col.c, 3⟩, fibSeq a b 5),
     (⟨Col.a, 4⟩, fibSeq a b 4), (⟨Col.b, 4⟩, fibSeq a b 5), (⟨Col.c, 4⟩, fibSeq a b 6),
     (⟨Col.a, 5⟩, fibSeq a b 5), (⟨Col.b, 5⟩, fibSeq a b 6), (⟨Col.c, 5⟩, fibSeq a b 7),
     (⟨Col.a, 6⟩, fibSeq a b 6), (⟨Col.b, 6⟩, fibSeq a b 7), (⟨Col.c, 6⟩, fibSeq a b 8),
     (⟨Col.a, 7⟩, fibSeq a b 7), (⟨Col.b, 7⟩, fibSeq a b 8), (⟨Col.c, 7⟩, fibSeq a b 9)]
  selectorRows := [0, 1, 2, 3, 4, 5, 6, 7]
  copies :=
    [(⟨Col.b, 0⟩, ⟨Col.a, 1⟩), (⟨Col.c, 0⟩, ⟨Col.b, 1⟩),
     (⟨Col.c, 0⟩, ⟨Col.a, 2⟩), (⟨Col.c, 1⟩, ⟨Col.b, 2⟩),
     (⟨Col.c, 1⟩, ⟨Col.a, 3⟩), (⟨Col.c, 2⟩, ⟨Col.b, 3⟩),
     (⟨Col.c, 2⟩, ⟨Col.a, 4⟩), (⟨Col.c, 3⟩, ⟨Col.b, 4⟩),
     (⟨Col.c, 3⟩, ⟨Col.a, 5⟩), (⟨Col.c, 4⟩, ⟨Col.b, 5⟩),
     (⟨Col.c, 4⟩, ⟨Col.a, 6⟩), (⟨Col.c, 5⟩, ⟨Col.b, 6⟩),
     (⟨Col.c, 5⟩, ⟨Col.a, 7⟩), (⟨Col.c, 6⟩, ⟨Col.b, 7⟩)]
  instanceBinds := [(⟨Col.a, 0⟩, 0), (⟨Col.b, 0⟩, 1), (⟨Col.c, 7⟩, 2)]
  nextRow := 8
  rowCalls := 7

theorem enableSelector_mk {F : Type} (row : Nat) (ad : List (Cell × F))
    (sr : List Nat) (cp : List (Cell × Cell)) (ib : List (Cell × Nat)) (nr rc : Nat) :
    enableSelector row ⟨ad, sr, cp, ib, nr, rc⟩ = ⟨ad, sr ++ [row], cp, ib, nr, rc⟩ := rfl

theorem assignAdvice_mk {F : Type} (col : Col) (row : Nat) (v : F)
    (ad : List (Cell × F)) (sr : List Nat) (cp : List (Cell × Cell))
    (ib : List (Cell × Nat)) (nr rc : Nat) :
    assignAdvice col row v ⟨ad, sr, cp, ib, nr, rc⟩ =
      (⟨⟨col, row⟩, v⟩, ⟨ad ++ [(⟨col, row⟩, v)], sr, cp, ib, nr, rc⟩) := rfl

theorem copy_advice_mk {F : Type} (src : AssignedCell F) (col : Col) (row : Nat)
    (ad : List (Cell × F)) (sr : List Nat) (cp : List (Cell × Cell))
    (ib : List (Cell × Nat)) (nr rc : Nat) :
    copy_advice src col row ⟨ad, sr, cp, ib, nr, rc⟩ =
      (⟨⟨col, row⟩, src.val⟩,
       ⟨ad ++ [(⟨col, row⟩, src.val)], sr, cp ++ [(src.cell, ⟨col, row⟩)], ib, nr, rc⟩) := rfl

theorem assign_row_mk {F : Type} [Field F] (pb pc : AssignedCell F)
    (ad : List (Cell × F)) (sr : List Nat) (cp : List (Cell × Cell))
    (ib : List (Cell × Nat)) (nr rc : Nat) :
    assign_row pb pc ⟨ad, sr, cp, ib, nr, rc⟩ =
      (⟨⟨Col.c, nr⟩, pb.val + pc.val⟩,
       ⟨ad ++ [(⟨Col.a, nr⟩, pb.val)] ++ [(⟨Col.b, nr⟩, pc.val)]
           ++ [(⟨Col.c, nr⟩, pb.val + pc.val)],
        sr ++ [nr],
        cp ++ [(pb.cell, ⟨Col.a, nr⟩)] ++ [(pc.cell, ⟨Col.b, nr⟩)],
        ib, nr + 1, rc + 1⟩) := rfl

theorem assign_first_row_mk {F : Type} [Field F] (a b : F) (rest : List F)
    (ad : List (Cell × F)) (sr : List Nat) (cp : List (Cell × Cell))
    (ib : List (Cell × Nat)) (nr rc : Nat) :
    assign_first_row (a :: b :: rest) ⟨ad, sr, cp, ib, nr, rc⟩ =
      Except.ok ((⟨⟨Col.a, nr⟩, a⟩, ⟨⟨Col.b, nr⟩, b⟩, ⟨⟨Col.c, nr⟩, a + b⟩),
        ⟨ad ++ [(⟨Col.a, nr⟩, a)] ++ [(⟨Col.b, nr⟩, b)] ++ [(⟨Col.c, nr⟩, a + b)],
         sr ++ [nr], cp,
         ib ++ [(⟨Col.a, nr⟩, 0)] ++ [(⟨Col.b, nr⟩, 1)],
         nr + 1, rc⟩) := rfl

theorem range_three_ten : List.range' 3 7 = [3, 4, 5, 6, 7, 8, 9] := rfl

/-- Running `synthesize` on any list of public inputs beginning with `a` and
`b` succeeds and produces exactly `fibState a b`: synthesis reads only
instance rows 0 and 1. -/
theorem synthesize_cons_cons {F : Type} [Field F] (a b : F) (rest : List F) :
    synthesize (a :: b :: rest) = Except.ok (fibState a b) := by
  simp only [synthesize, initState, assign_first_row_mk, range_three_ten, synthLoop,
    assign_row_mk, expose_public, List.nil_append, List.cons_append, List.append_nil,
    List.singleton_append, List.append_assoc]
  rfl

/-- Running `synthesize` on three public inputs succeeds and produces
exactly `fibState a b`; the third input is never read during synthesis. -/
theorem synthesize_ok {F : Type} [Field F] (a b out : F) :
    synthesize [a, b, out] = Except.ok (fibState a b) :=
  synthesize_cons_cons a b [out]

/-- The canonical (honest) full assignment of the advice grid: row `r`
holds `(F(r), F(r+1), F(r+2))`. -/
def wStar {F : Type} [Field F] (a b : F) : Nat → Col → F := fun r cc =>
  match cc with
  | Col.a => fibSeq a b r
  | Col.b => fibSeq a b (r + 1)
  | Col.c => fibSeq a b (r + 2)

theorem fibSeq_zero {F : Type} [Field F] (a b : F) : fibSeq a b 0 = a := rfl

theorem fibSeq_one {F : Type} [Field F] (a b : F) : fibSeq a b 1 = b := rfl

theorem fibSeq_add_two {F : Type} [Field F] (a b : F) (n : Nat) :
    fibSeq a b (n + 2) = fibSeq a b n + fibSeq a b (n + 1) := rfl

/-- The honest assignment satisfies the constraint system whenever the third
public input is `F(9)`. -/
theorem wStar_satisfies {F : Type} [Field F] (a b : F) :
    Satisfies [a, b, fibSeq a b 9] (fibState a b) (wStar a b) := by
  refine ⟨?_, ?_, ?_⟩
  · intro r
    show selVal (fibState a b) r *
      (fibSeq a b r + fibSeq a b (r + 1) - fibSeq a b (r + 2)) = 0
    rw [fibSeq_add_two]
    simp
  · intro p hp
    fin_cases hp <;> rfl
  · intro p hp
    fin_cases hp <;> rfl

/-- Any assignment satisfying the produced constraint system forces the
third public input to equal `F(9)`: the instance bindings pin row 0 to
`(a, b, _)`, the gate pins each row's `c` to `a + b`, the copy constraints
chain the rows, and the final binding pins `out` to row 7's `c`. -/
theorem satisfies_fibState_out {F : Type} [Field F] (a b out : F)
    (w : Nat → Col → F) (h : Satisfies [a, b, out] (fibState a b) w) :
    out = fibSeq a b 9 := by
  obtain ⟨hG, hC, hB⟩ := h
  have ha : a = w 0 Col.a := by
    simpa [cellVal] using hB (⟨Col.a, 0⟩, 0) (by simp [fibState])
  have hb : b = w 0 Col.b := by
    simpa [cellVal] using hB (⟨Col.b, 0⟩, 1) (by simp [fibState])
  have hout : out = w 7 Col.c := by
    simpa [cellVal] using hB (⟨Col.c, 7⟩, 2) (by simp [fibState])
  have g0 : w 0 Col.a + w 0 Col.b = w 0 Col.c := by
    have h := hG 0
    simp [Expr.eval, addGate, selVal, fibState] at h
    exact sub_eq_zero.mp h
  have g1 : w 1 Col.a + w 1 Col.b = w 1 Col.c := by
    have h := hG 1
    simp [Expr.eval, addGate, selVal, fibState] at h
    exact sub_eq_zero.mp h
  have g2 : w 2 Col.a + w 2 Col.b = w 2 Col.c := by
    have h := hG 2
    simp [Expr.eval, addGate, selVal, fibState] at h
    exact sub_eq_zero.mp h
  have g3 : w 3 Col.a + w 3 Col.b = w 3 Col.c := by
    have h := hG 3
    simp [Expr.eval, addGate, selVal, fibState] at h
    exact sub_eq_zero.mp h
  have g4 : w 4 Col.a + w 4 Col.b = w 4 Col.c := by
    have h := hG 4
    simp [Expr.eval, addGate, selVal, fibState] at h
    exact sub_eq_zero.mp h
  have g5 : w 5 Col.a + w 5 Col.b = w 5 Col.c := by
    have h := hG 5
    simp [Expr.eval, addGate, selVal, fibState] at h
    exact sub_eq_zero.mp h
  have g6 : w 6 Col.a + w 6 Col.b = w 6 Col.c := by
    have h := hG 6
    simp [Expr.eval, addGate, selVal, fibState] at h
    exact sub_eq_zero.mp h
  have g7 : w 7 Col.a + w 7 Col.b = w 7 Col.c := by
    have h := hG 7
    simp [Expr.eval, addGate, selVal, fibState] at h
    exact sub_eq_zero.mp h
  have k1 : w 0 Col.b = w 1 Col.a := by
    simpa [cellVal] using hC (⟨Col.b, 0⟩, ⟨Col.a, 1⟩) (by simp [fibState])
  have k2 : w 0 Col.c = w 1 Col.b := by
    simpa [cellVal] using hC (⟨Col.c, 0⟩, ⟨Col.b, 1⟩) (by simp [fibState])
  have k3 : w 0 Col.c = w 2 Col.a := by
    simpa [cellVal] using hC (⟨Col.c, 0⟩, ⟨Col.a, 2⟩) (by simp [fibState])
  have k4 : w 1 Col.c = w 2 Col.b := by
    simpa [cellVal] using hC (⟨Col.c, 1⟩, ⟨Col.b, 2⟩) (by simp [fibState])
  have k5 : w 1 Col.c = w 3 Col.a := by
    simpa [cellVal] using hC (⟨Col.c, 1⟩, ⟨Col.a, 3⟩) (by simp [fibState])
  have k6 : w 2 Col.c = w 3 Col.b := by
    simpa [cellVal] using hC (⟨Col.c, 2⟩, ⟨Col.b, 3⟩) (by simp [fibState])
  have k7 : w 2 Col.c = w 4 Col.a := by
    simpa [cellVal] using hC (⟨Col.c, 2⟩, ⟨Col.a, 4⟩) (by simp [fibState])
  have k8 : w 3 Col.c = w 4 Col.b := by
    simpa [cellVal] using hC (⟨Col.c, 3⟩, ⟨Col.b, 4⟩) (by simp [fibState])
  have k9 : w 3 Col.c = w 5 Col.a := by
    simpa [cellVal] using hC (⟨Col.c, 3⟩, ⟨Col.a, 5⟩) (by simp [fibState])
  have k10 : w 4 Col.c = w 5 Col.b := by
    simpa [cellVal] using hC (⟨Col.c, 4⟩, ⟨Col.b, 5⟩) (by simp [fibState])
  have k11 : w 4 Col.c = w 6 Col.a := by
    simpa [cellVal] using hC (⟨Col.c, 4⟩, ⟨Col.a, 6⟩) (by simp [fibState])
  have k12 : w 5 Col.c = w 6 Col.b := by
    simpa [cellVal] using hC (⟨Col.c, 5⟩, ⟨Col.b, 6⟩) (by simp [fibState])
  have k13 : w 5 Col.c = w 7 Col.a := by
    simpa [cellVal] using hC (⟨Col.c, 5⟩, ⟨Col.a, 7⟩) (by simp [fibState])
  have k14 : w 6 Col.c = w 7 Col.b := by
    simpa [cellVal] using hC (⟨Col.c, 6⟩, ⟨Col.b, 7⟩) (by simp [fibState])
  have wa0 : w 0 Col.a = fibSeq a b 0 := ha.symm
  have wb0 : w 0 Col.b = fibSeq a b 1 := hb.symm
  have wc0 : w 0 Col.c = fibSeq a b 2 := by
    rw [← g0, wa0, wb0]; exact (fibSeq_add_two a b 0).symm
  have wa1 : w 1 Col.a = fibSeq a b 1 := by rw [← k1, wb0]
  have wb1 : w 1 Col.b = fibSeq a b 2 := by rw [← k2, wc0]
  have wc1 : w 1 Col.c = fibSeq a b 3 := by
    rw [← g1, wa1, wb1]; exact (fibSeq_add_two a b 1).symm
  have wa2 : w 2 Col.a = fibSeq a b 2 := by rw [← k3, wc0]
  have wb2 : w 2 Col.b = fibSeq a b 3 := by rw [← k4, wc1]
  have wc2 : w 2 Col.c = fibSeq a b 4 := by
    rw [← g2, wa2, wb2]; exact (fibSeq_add_two a b 2).symm
  have wa3 : w 3 Col.a = fibSeq a b 3 := by rw [← k5, wc1]
  have wb3 : w 3 Col.b = fibSeq a b 4 := by rw [← k6, wc2]
  have wc3 : w 3 Col.c = fibSeq a b 5 := by
    rw [← g3, wa3, wb3]; exact (fibSeq_add_two a b 3).symm
  have wa4 : w 4 Col.a = fibSeq a b 4 := by rw [← k7, wc2]
  have wb4 : w 4 Col.b = fibSeq a b 5 := by rw [← k8, wc3]
  have wc4 : w 4 Col.c = fibSeq a b 6 := by
    rw [← g4, wa4, wb4]; exact (fibSeq_add_two a b 4).symm
  have wa5 : w 5 Col.a = fibSeq a b 5 := by rw [← k9, wc3]
  have wb5 : w 5 Col.b = fibSeq a b 6 := by rw [← k10, wc4]
  have wc5 : w 5 Col.c = fibSeq a b 7 := by
    rw [← g5, wa5, wb5]; exact (fibSeq_add_two a b 5).symm
  have wa6 : w 6 Col.a = fibSeq a b 6 := by rw [← k11, wc4]
  have wb6 : w 6 Col.b = fibSeq a b 7 := by rw [← k12, wc5]
  have wc6 : w 6 Col.c = fibSeq a b 8 := by
    rw [← g6, wa6, wb6]; exact (fibSeq_add_two a b 6).symm
  have wa7 : w 7 Col.a = fibSeq a b 7 := by rw [← k13, wc5]
  have wb7 : w 7 Col.b = fibSeq a b 8 := by rw [← k14, wc6]
  have wc7 : w 7 Col.c = fibSeq a b 9 := by
    rw [← g7, wa7, wb7]; exact (fibSeq_add_two a b 7).symm
  rw [hout, wc7]

/-- Satisfiability of the produced constraint system is equivalent to the
third public input being `F(9)`. -/
theorem satisfiable_fibState_iff {F : Type} [Field F] (a b out : F) :
    Satisfiable [a, b, out] (fibState a b) ↔ out = fibSeq a b 9 := by
  constructor
  · rintro ⟨w, hw⟩
    exact satisfies_fibState_out a b out w hw
  · rintro rfl
    exact ⟨wStar a b, wStar_satisfies a b⟩

/-- Synthesis fails on an empty instance column: the very first
`assign_advice_from_instance` call reports a bounds failure. -/
theorem synthesize_nil {F : Type} [Field F] :
    synthesize ([] : List F) = Except.error Err.boundsFailure := rfl

/-- Synthesis fails when only one instance value is supplied: the read of
instance row 1 reports a bounds failure. -/
theorem synthesize_single {F : Type} [Field F] (a : F) :
    synthesize [a] = Except.error Err.boundsFailure := rfl

instance : Fact (Nat.Prime 101) := ⟨by norm_num⟩

/-- C1: for every pair of field elements `a`, `b` supplied as instance rows
0 and 1, the constraint system produced by `synthesize` is satisfiable
exactly when the third public input equals `F(9)` (the 9th Fibonacci term
under `F(0) = a`, `F(1) = b`); hence proof verification succeeds exactly
when `out = F(9)` and fails otherwise. -/
theorem claim1_verification_iff_fib9 {F : Type} [Field F] (a b out : F)
    (st : SynthState F) (h : synthesize [a, b, out] = Except.ok st) :
    Satisfiable [a, b, out] st ↔ out = fibSeq a b 9 := by
  rw [synthesize_ok] at h
  obtain rfl : fibState a b = st := Except.ok.inj h
  exact satisfiable_fibState_iff a b out

theorem claim1_witness :
    synthesize [(1 : ZMod 101), 1, 55] = Except.ok (fibState 1 1) ∧
      (Satisfiable [(1 : ZMod 101), 1, 55] (fibState 1 1) ↔
        (55 : ZMod 101) = fibSeq 1 1 9) ∧
      (55 : ZMod 101) = fibSeq 1 1 9 :=
  ⟨synthesize_ok 1 1 55,
   claim1_verification_iff_fib9 1 1 55 (fibState 1 1) (synthesize_ok 1 1 55),
   by decide⟩

/-- C2: for every pair of public inputs `a = F(0)` and `b = F(1)`, the final
cell that `synthesize` exposes is `(col_c, 7)`, the last recorded instance
binding ties it to instance row 2, and the value honestly assigned to it is
the 9th Fibonacci term obtained by repeated addition from `a` and `b`
(with `a = 1`, `b = 1` this value is 55, checked in the witness). -/
theorem claim2_final_cell_holds_fib9 {F : Type} [Field F] (a b out : F)
    (st : SynthState F) (h : synthesize [a, b, out] = Except.ok st) :
    st.instanceBinds.getLast? = some (⟨Col.c, 7⟩, 2) ∧
      (⟨Col.c, 7⟩, fibSeq a b 9) ∈ st.advice := by
  rw [synthesize_ok] at h
  obtain rfl : fibState a b = st := Except.ok.inj h
  refine ⟨rfl, ?_⟩
  simp [fibState]

theorem claim2_witness :
    synthesize [(1 : ZMod 101), 1, 55] = Except.ok (fibState 1 1) ∧
      (⟨Col.c, 7⟩, fibSeq (1 : ZMod 101) 1 9) ∈ (fibState (1 : ZMod 101) 1).advice ∧
      fibSeq (1 : ZMod 101) 1 9 = 55 :=
  ⟨synthesize_ok 1 1 55,
   (claim2_final_cell_holds_fib9 1 1 55 (fibState 1 1) (synthesize_ok 1 1 55)).2,
   by decide⟩

/-- C3 counterexample: on the concrete run `a = 1`, `b = 1`, `out = 55` over
`ZMod 101`, the subsequent-row routine is called exactly 7 times but the
resulting trace has 8 rows, not the 9 rows (1 first + 8 subsequent) the
claim states. -/
theorem claim3_counterexample :
    synthesize [(1 : ZMod 101), 1, 55] = Except.ok (fibState 1 1) ∧
      (fibState (1 : ZMod 101) 1).rowCalls = 7 ∧
      (fibState (1 : ZMod 101) 1).nextRow = 8 ∧
      ¬ (fibState (1 : ZMod 101) 1).nextRow = 9 :=
  ⟨synthesize_ok 1 1 55, rfl, rfl, by decide⟩

/-- C3 (amended): during `synthesize` the subsequent-row assignment routine
(`assign_row`) is called exactly 7 times (loop bound `3..10`), and the
resulting trace is 8 rows total: 1 first row plus 7 subsequent rows. -/
theorem claim3_seven_calls_eight_rows {F : Type} [Field F] (a b out : F)
    (st : SynthState F) (h : synthesize [a, b, out] = Except.ok st) :
    st.rowCalls = 7 ∧ st.nextRow = 8 := by
  rw [synthesize_ok] at h
  obtain rfl : fibState a b = st := Except.ok.inj h
  exact ⟨rfl, rfl⟩

theorem claim3_witness :
    synthesize [(1 : ZMod 101), 1, 55] = Except.ok (fibState 1 1) ∧
      (fibState (1 : ZMod 101) 1).rowCalls = 7 ∧
      (fibState (1 : ZMod 101) 1).nextRow = 8 :=
  ⟨synthesize_ok 1 1 55,
   claim3_seven_calls_eight_rows 1 1 55 (fibState 1 1) (synthesize_ok 1 1 55)⟩

/-- C4: the single registered gate is `selector * (a + b - c)`; on a row
whose selector value is 1 it vanishes exactly when `c = a + b`; and the
selector is enabled on every row the circuit assigns. -/
theorem claim4_gate_and_selector {F : Type} [Field F] (a b out : F)
    (st : SynthState F) (h : synthesize [a, b, out] = Except.ok st) :
    (FibonacciConfig.new F).2.gates = [addGate F] ∧
      (∀ v : Col → F, ∀ s : F,
        Expr.eval v s (addGate F) = s * (v Col.a + v Col.b - v Col.c)) ∧
      (∀ v : Col → F, Expr.eval v 1 (addGate F) = 0 ↔ v Col.a + v Col.b = v Col.c) ∧
      (∀ r : Nat, r < st.nextRow → r ∈ st.selectorRows) := by
  rw [synthesize_ok] at h
  obtain rfl : fibState a b = st := Except.ok.inj h
  refine ⟨rfl, fun v s => rfl, fun v => ?_, fun r hr => ?_⟩
  · show (1 : F) * (v Col.a + v Col.b - v Col.c) = 0 ↔ _
    rw [one_mul, sub_eq_zero]
  · have hr8 : r < 8 := hr
    show r ∈ [0, 1, 2, 3, 4, 5, 6, 7]
    interval_cases r <;> simp

theorem claim4_witness :
    synthesize [(1 : ZMod 101), 1, 55] = Except.ok (fibState 1 1) ∧
      (7 : Nat) ∈ (fibState (1 : ZMod 101) 1).selectorRows :=
  ⟨synthesize_ok 1 1 55,
   (claim4_gate_and_selector 1 1 55 (fibState 1 1) (synthesize_ok 1 1 55)).2.2.2
     7 (by decide)⟩

/-- C5: in every assignment satisfying the produced constraint system, each
row after the first has its `(a, b)` cells equal to the previous row's
`(b, c)` cells — the equality is forced by the recorded copy constraints, so
a prover supplying unrelated values on a non-first row is rejected. -/
theorem claim5_row_chaining {F : Type} [Field F] (a b out : F)
    (st : SynthState F) (w : Nat → Col → F)
    (h : synthesize [a, b, out] = Except.ok st)
    (hw : Satisfies [a, b, out] st w) :
    ∀ i : Nat, i < 7 →
      w (i + 1) Col.a = w i Col.b ∧ w (i + 1) Col.b = w i Col.c := by
  rw [synthesize_ok] at h
  obtain rfl : fibState a b = st := Except.ok.inj h
  obtain ⟨-, hC, -⟩ := hw
  have k1 : w 0 Col.b = w 1 Col.a := by
    simpa [cellVal] using hC (⟨Col.b, 0⟩, ⟨Col.a, 1⟩) (by simp [fibState])
  have k2 : w 0 Col.c = w 1 Col.b := by
    simpa [cellVal] using hC (⟨Col.c, 0⟩, ⟨Col.b, 1⟩) (by simp [fibState])
  have k3 : w 0 Col.c = w 2 Col.a := by
    simpa [cellVal] using hC (⟨Col.c, 0⟩, ⟨Col.a, 2⟩) (by simp [fibState])
  have k4 : w 1 Col.c = w 2 Col.b := by
    simpa [cellVal] using hC (⟨Col.c, 1⟩, ⟨Col.b, 2⟩) (by simp [fibState])
  have k5 : w 1 Col.c = w 3 Col.a := by
    simpa [cellVal] using hC (⟨Col.c, 1⟩, ⟨Col.a, 3⟩) (by simp [fibState])
  have k6 : w 2 Col.c = w 3 Col.b := by
    simpa [cellVal] using hC (⟨Col.c, 2⟩, ⟨Col.b, 3⟩) (by simp [fibState])
  have k7 : w 2 Col.c = w 4 Col.a := by
    simpa [cellVal] using hC (⟨Col.c, 2⟩, ⟨Col.a, 4⟩) (by simp [fibState])
  have k8 : w 3 Col.c = w 4 Col.b := by
    simpa [cellVal] using hC (⟨Col.c, 3⟩, ⟨Col.b, 4⟩) (by simp [fibState])
  have k9 : w 3 Col.c = w 5 Col.a := by
    simpa [cellVal] using hC (⟨Col.c, 3⟩, ⟨Col.a, 5⟩) (by simp [fibState])
  have k10 : w 4 Col.c = w 5 Col.b := by
    simpa [cellVal] using hC (⟨Col.c, 4⟩, ⟨Col.b, 5⟩) (by simp [fibState])
  have k11 : w 4 Col.c = w 6 Col.a := by
    simpa [cellVal] using hC (⟨Col.c, 4⟩, ⟨Col.a, 6⟩) (by simp [fibState])
  have k12 : w 5 Col.c = w 6 Col.b := by
    simpa [cellVal] using hC (⟨Col.c, 5⟩, ⟨Col.b, 6⟩) (by simp [fibState])
  have k13 : w 5 Col.c = w 7 Col.a := by
    simpa [cellVal] using hC (⟨Col.c, 5⟩, ⟨Col.a, 7⟩) (by simp [fibState])
  have k14 : w 6 Col.c = w 7 Col.b := by
    simpa [cellVal] using hC (⟨Col.c, 6⟩, ⟨Col.b, 7⟩) (by simp [fibState])
  intro i hi
  interval_cases i
  · exact ⟨k1.symm, k2.symm⟩
  · exact ⟨k3.symm.trans k2, k4.symm⟩
  · exact ⟨k5.symm.trans k4, k6.symm⟩
  · exact ⟨k7.symm.trans k6, k8.symm⟩
  · exact ⟨k9.symm.trans k8, k10.symm⟩
  · exact ⟨k11.symm.trans k10, k12.symm⟩
  · exact ⟨k13.symm.trans k12, k14.symm⟩

theorem claim5_witness :
    wStar (1 : ZMod 101) 1 1 Col.a = wStar (1 : ZMod 101) 1 0 Col.b := by
  have h55 : (55 : ZMod 101) = fibSeq 1 1 9 := by decide
  have hsat : Satisfies [(1 : ZMod 101), 1, 55] (fibState 1 1) (wStar 1 1) := by
    rw [h55]
    exact wStar_satisfies 1 1
  exact (claim5_row_chaining 1 1 55 (fibState 1 1) (wStar 1 1)
    (synthesize_ok 1 1 55) hsat 0 (by decide)).1

/-- C6: the circuit references exactly the three instance rows 0, 1, 2, in
this order: rows 0 and 1 are copied into row 0's `col_a` and `col_b`
(producing both the honest advice values `a`, `b` and the corresponding
equality bindings), and the last computed cell `(col_c, 7)` is bound to
instance row 2. -/
theorem claim6_instance_layout {F : Type} [Field F] (a b out : F)
    (st : SynthState F) (h : synthesize [a, b, out] = Except.ok st) :
    st.instanceBinds = [(⟨Col.a, 0⟩, 0), (⟨Col.b, 0⟩, 1), (⟨Col.c, 7⟩, 2)] ∧
      (⟨Col.a, 0⟩, a) ∈ st.advice ∧ (⟨Col.b, 0⟩, b) ∈ st.advice ∧
      [a, b, out].length = 3 := by
  rw [synthesize_ok] at h
  obtain rfl : fibState a b = st := Except.ok.inj h
  refine ⟨rfl, ?_, ?_, rfl⟩
  · simp [fibState, fibSeq_zero]
  · simp [fibState, fibSeq_one]

theorem claim6_witness :
    synthesize [(1 : ZMod 101), 1, 55] = Except.ok (fibState 1 1) ∧
      (fibState (1 : ZMod 101) 1).instanceBinds =
        [(⟨Col.a, 0⟩, 0), (⟨Col.b, 0⟩, 1), (⟨Col.c, 7⟩, 2)] :=
  ⟨synthesize_ok 1 1 55,
   (claim6_instance_layout 1 1 55 (fibState 1 1) (synthesize_ok 1 1 55)).1⟩

/-- C7: `synthesize` returns an error exactly when an underlying
region-assignment call fails, which in this circuit happens exactly when
fewer than two instance values were supplied (the instance reads of rows 0
and 1 fail); with three instance values synthesis always succeeds whatever
the third value is, so a wrong `out` never surfaces at synthesis time. -/
theorem claim7_error_propagation {F : Type} [Field F] :
    (∀ a b out : F, synthesize [a, b, out] = Except.ok (fibState a b)) ∧
      (∀ pub : List F, (∃ st, synthesize pub = Except.ok st) ↔ 2 ≤ pub.length) := by
  refine ⟨synthesize_ok, fun pub => ?_⟩
  match pub with
  | [] => simp [synthesize_nil]
  | [a] => simp [synthesize_single]
  | a :: b :: rest =>
    rw [synthesize_cons_cons]
    constructor
    · intro _
      simp only [List.length_cons]
      omega
    · intro _
      exact ⟨fibState a b, rfl⟩

/-- C8: the configuration step allocates exactly three advice columns, one
selector and one instance column, enables equality on the three advice
columns and on the instance column, and registers exactly one gate, whose
polynomial evaluates to `selector * (a + b - c)`. -/
theorem claim8_configuration {F : Type} [Field F] :
    (FibonacciConfig.new F).1 = ⟨0, 1, 2, 0, 0⟩ ∧
      (FibonacciConfig.new F).2.numAdvice = 3 ∧
      (FibonacciConfig.new F).2.numSelectors = 1 ∧
      (FibonacciConfig.new F).2.numInstanceCols = 1 ∧
      (FibonacciConfig.new F).2.eqAdvice = [0, 1, 2] ∧
      (FibonacciConfig.new F).2.eqInstanceCols = [0] ∧
      (FibonacciConfig.new F).2.gates = [addGate F] ∧
      (∀ v : Col → F, ∀ s : F,
        Expr.eval v s (addGate F) = s * (v Col.a + v Col.b - v Col.c)) :=
  ⟨rfl, rfl, rfl, rfl, rfl, rfl, rfl, fun _ _ => rfl⟩

/-- C9: synthesis is deterministic: two runs on identical public inputs
return identical results (hence identical constraint systems and honest
witness assignments) and have the same satisfiability outcome. -/
theorem claim9_deterministic {F : Type} [Field F] (pub1 pub2 : List F)
    (h : pub1 = pub2) :
    synthesize pub1 = synthesize pub2 ∧ (SatOutcome pub1 ↔ SatOutcome pub2) := by
  subst h
  exact ⟨rfl, Iff.rfl⟩

theorem claim9_witness :
    synthesize [(1 : ZMod 101), 1, 55] = synthesize [(1 : ZMod 101), 1, 55] ∧
      (SatOutcome [(1 : ZMod 101), 1, 55] ↔ SatOutcome [(1 : ZMod 101), 1, 55]) :=
  claim9_deterministic [(1 : ZMod 101), 1, 55] [(1 : ZMod 101), 1, 55] rfl

/-- C10: every advice value `synthesize` assigns is computed solely from
instance rows 0 and 1; instance row 2 is never read during witness
assignment, so two runs differing only in the value at instance row 2
produce identical synthesis states — in particular identical assigned
witness values. -/
theorem claim10_out_never_read {F : Type} [Field F] (a b out1 out2 : F) :
    synthesize [a, b, out1] = synthesize [a, b, out2] ∧
      synthesize [a, b, out1] = Except.ok (fibState a b) :=
  ⟨(synthesize_ok a b out1).trans (synthesize_ok a b out2).symm,
   synthesize_ok a b out1⟩

end FibCircuit
